import Mathlib

/-!
Shallow embedding of `scripts/gen-operators.py` (the govips operator binding
generator).  The script walks the libvips operation class hierarchy and emits
Go wrapper functions by template substitution.  Every definition below is a
direct translation of the corresponding Python function; registry data
(operation classes, argument flags, priorities) that the script obtains via
GObject introspection is modelled as explicit input data.
-/

set_option maxHeartbeats 1000000

namespace GenOperators

/-- The native value type of an argument, as seen through introspection:
its GType name, whether the `GObject.type_is_a(vips_type_image, ...)` image
test succeeds for it, and whether the `GObject.type_is_a(param_enum, ...)`
enum test succeeds for the param spec. -/
structure VType where
  name : String
  isImage : Bool
  isEnum : Bool
deriving Repr, DecidableEq

/-- One property of an operation (`prop` in the script) together with the
results of `op.get_argument_flags(prop.name)` and
`op.get_argument_priority(prop.name)`. -/
structure Arg where
  name : String
  vtype : VType
  required : Bool
  deprecated : Bool
  output : Bool
  priority : Int
deriving Repr, DecidableEq

/-- A node of the registry class hierarchy: class name, `is_abstract()`,
the nickname `Vips.nickname_find` resolves for it, the props of an
instantiated operation, and the child classes. -/
inductive OpClass where
  | node (name : String) (is_abstract : Bool) (nickname : String)
      (args : List Arg) (children : List OpClass)
deriving Repr

/-- The `go_types` lookup table of the script (native type name to Go type). -/
def go_types : String → Option String
  | "gboolean" => some "bool"
  | "gchararray" => some "string"
  | "gdouble" => some "float64"
  | "gint" => some "int"
  | "VipsBlob" => some "*Blob"
  | "VipsImage" => some "*C.VipsImage"
  | "VipsInterpolate" => some "*Interpolator"
  | "VipsOperationMath" => some "OperationMath"
  | "VipsOperationMath2" => some "OperationMath2"
  | "VipsOperationRound" => some "OperationRound"
  | "VipsOperationRelational" => some "OperationRelational"
  | "VipsOperationBoolean" => some "OperationBoolean"
  | "VipsOperationComplex" => some "OperationComplex"
  | "VipsOperationComplex2" => some "OperationComplex2"
  | "VipsOperationComplexget" => some "OperationComplexGet"
  | "VipsDirection" => some "Direction"
  | "VipsAngle" => some "Angle"
  | "VipsAngle45" => some "Angle45"
  | "VipsCoding" => some "Coding"
  | "VipsInterpretation" => some "Interpretation"
  | "VipsBandFormat" => some "BandFormat"
  | "VipsOperationMorphology" => some "OperationMorphology"
  | _ => none

/-- The `options_method_names` lookup table of the script. -/
def options_method_names : String → Option String
  | "gboolean" => some "Bool"
  | "gchararray" => some "String"
  | "gdouble" => some "Double"
  | "gint" => some "Int"
  | "VipsArrayDouble" => some "DoubleArray"
  | "VipsArrayImage" => some "ImageArray"
  | "VipsImage" => some "Image"
  | _ => none

/-- `get_type(prop)`: `go_types[prop.value_type.name]`.  A missing key raises
`KeyError`, whose `str` is the key wrapped in single quotes. -/
def get_type (p : Arg) : Except String String :=
  match go_types p.vtype.name with
  | some t => Except.ok t
  | none => Except.error ("\x27" ++ p.vtype.name ++ "\x27")

/-- `get_options_method_name(prop)`: enums use "Int", otherwise the
`options_method_names` table (missing key raises `KeyError`). -/
def get_options_method_name (p : Arg) : Except String String :=
  if p.vtype.isEnum then Except.ok "Int"
  else
    match options_method_names p.vtype.name with
    | some m => Except.ok m
    | none => Except.error ("\x27" ++ p.vtype.name ++ "\x27")

/-- `cppize(name)`: `re.sub('-', '_', name)` — replace each hyphen by an
underscore (a character-wise substitution). -/
def cppize (name : String) : String :=
  ⟨name.data.map fun c => if c = '-' then '_' else c⟩

/-- Python `str.title()` restricted to the ASCII data this script feeds it:
the first cased (alphabetic) character after an uncased one is uppercased,
all other alphabetic characters are lowercased, non-alphabetic characters
pass through and reset the word boundary. -/
def titleAux : Bool → List Char → List Char
  | _, [] => []
  | prevCased, c :: cs =>
    if c.isAlpha then
      (if prevCased then c.toLower else c.toUpper) :: titleAux true cs
    else
      c :: titleAux false cs

/-- Python `name.title()` (see `titleAux`). -/
def pyTitle (s : String) : String :=
  ⟨titleAux false s.data⟩

/-- `upper_camelcase(name)`: empty stays empty; otherwise `cppize`, then
`title()`, then drop whitespace and underscores. -/
def upper_camelcase (name : String) : String :=
  if name = "" then ""
  else
    let name := cppize name
    ⟨(pyTitle name).data.filter fun c => ¬c.isWhitespace ∧ c ≠ '_'⟩

/-- Python `str.split('_')` on the underlying character list: split at every
underscore, keeping empty segments (`"".split('_') == ['']`). -/
def splitUnderscore : List Char → List (List Char)
  | [] => [[]]
  | c :: cs =>
    let r := splitUnderscore cs
    if c = '_' then [] :: r
    else (c :: r.headD []) :: r.tail

/-- Python `name.split('_')` (see `splitUnderscore`). -/
def pySplit (name : String) : List String :=
  (splitUnderscore name.data).map fun l => ⟨l⟩

/-- `lower_camelcase(name)`: `cppize`, split on underscore, first part
unchanged plus `upper_camelcase` of the concatenation of the remaining
parts.  (`parts` is never empty, so `parts[0]` is modelled by `headD`.) -/
def lower_camelcase (name : String) : String :=
  let name := cppize name
  let parts := pySplit name
  parts.headD "" ++ upper_camelcase (String.join parts.tail)

/-- The comparison `priority_sort` sorts by: ascending argument priority. -/
def ple (a b : Arg) : Prop := a.priority ≤ b.priority

instance : DecidableRel ple := fun a b => inferInstanceAs (Decidable (a.priority ≤ b.priority))

instance : IsTotal Arg ple := ⟨fun a b => Int.le_total a.priority b.priority⟩

instance : IsTrans Arg ple := ⟨fun _ _ _ h1 h2 => le_trans h1 h2⟩

/-- `find_required(op)`: keep the props whose REQUIRED flag is set and whose
DEPRECATED flag is not, then stable-sort them by ascending priority
(Python's `list.sort` with a comparison function is a stable sort, modelled
by insertion sort). -/
def find_required (args : List Arg) : List Arg :=
  List.insertionSort ple (args.filter fun a => a.required && !a.deprecated)

/-- The accumulator lists built by the loop in `gen_operation`, in source
order (the unused `return_names` list is omitted). -/
structure GenData where
  args : List String
  decls : List String
  return_types : List String
  return_values : List String
  input_options : List String
  output_options : List String
  method_args : List String
  call_values : List String
  images_in : Nat
  images_out : Nat
deriving Repr, DecidableEq

/-- The empty accumulators at the top of `gen_operation`. -/
def GenData.init : GenData :=
  ⟨[], [], [], [], [], [], [], [], 0, 0⟩

/-- One iteration of the prop loop in `gen_operation`, after the two type
lookups have succeeded with `prop_type` and `method_name`. -/
def genStepOk (d : GenData) (p : Arg) (prop_type method_name : String) : GenData :=
  let name := lower_camelcase p.name
  if p.output then
    let d :=
      if p.vtype.isImage then { d with images_out := d.images_out + 1 }
      else { d with method_args := d.method_args ++ [name ++ " *" ++ prop_type] }
    { d with
      return_types := d.return_types ++ [prop_type]
      decls := d.decls ++ ["var " ++ name ++ " " ++ prop_type]
      return_values := d.return_values ++ [name]
      output_options := d.output_options ++
        ["Output" ++ method_name ++ "(\"" ++ p.name ++ "\", &" ++ name ++ "),"] }
  else
    let d :=
      if p.vtype.isImage then { d with images_in := d.images_in + 1 }
      else { d with
        call_values := d.call_values ++ [name]
        method_args := d.method_args ++ [name ++ " " ++ prop_type] }
    let arg_name := if p.vtype.isEnum then "int(" ++ name ++ ")" else name
    { d with
      args := d.args ++ [name ++ " " ++ prop_type]
      input_options := d.input_options ++
        ["Input" ++ method_name ++ "(\"" ++ p.name ++ "\", " ++ arg_name ++ "),"] }

/-- One iteration of the prop loop: `get_type` and then
`get_options_method_name` may raise, aborting `gen_operation`. -/
def genStep (d : GenData) (p : Arg) : Except String GenData :=
  match get_type p with
  | Except.error e => Except.error e
  | Except.ok prop_type =>
    match get_options_method_name p with
    | Except.error e => Except.error e
    | Except.ok method_name => Except.ok (genStepOk d p prop_type method_name)

/-- The whole prop loop of `gen_operation` over `all_props`. -/
def genFold : List Arg → GenData → Except String GenData
  | [], d => Except.ok d
  | p :: ps, d =>
    match genStep d p with
    | Except.error e => Except.error e
    | Except.ok d1 => genFold ps d1

/-- The fixed trailing appends after the prop loop (`options ...*Option`,
`var err error`, `error`, `err`, `options...`). -/
def genFinal (d : GenData) : GenData :=
  { d with
    args := d.args ++ ["options ...*Option"]
    decls := d.decls ++ ["var err error"]
    return_types := d.return_types ++ ["error"]
    return_values := d.return_values ++ ["err"]
    method_args := d.method_args ++ ["options ...*Option"]
    call_values := d.call_values ++ ["options..."] }

/-- `func_template.substitute(d)`: the primary wrapper function text, with
the joins `', '`, `'\n\t'` and `'\n\t\t'` applied exactly as in
`gen_operation`. -/
def emit_func (op_name func_name : String) (d : GenData) : String :=
  "\n// " ++ func_name ++ " executes the \x27" ++ op_name ++ "\x27 operation\nfunc " ++
    func_name ++ "(" ++ String.intercalate ", " d.args ++ ") (" ++
    String.intercalate ", " d.return_types ++ ") \x7b\n  " ++
    String.intercalate "\n\t" d.decls ++
    "\n  options = append(options,\n    " ++
    String.intercalate "\n\t\t" d.input_options ++ "\n    " ++
    String.intercalate "\n\t\t" d.output_options ++
    "\n  )\n  incOpCounter(\"" ++ op_name ++ "\")\n  err = vipsCall(\"" ++ op_name ++
    "\", options)\n  return " ++ String.intercalate ", " d.return_values ++ "\n\x7d\n"

/-- `stream_template.substitute(d)`: the secondary method text. -/
def emit_method (op_name func_name : String) (d : GenData) : String :=
  "\n// " ++ func_name ++ " executes the \x27" ++ op_name ++ "\x27 operation\nfunc (in *ImageRef) " ++
    func_name ++ "(" ++ String.intercalate ", " d.method_args ++
    ") error \x7b\n  out, err := " ++ func_name ++ "(in.image, " ++
    String.intercalate ", " d.call_values ++
    ")\n  if err != nil \x7b\n    return err\n  \x7d\n  in.SetImage(out)\n  return nil\n\x7d\n"

/-- `gen_operation(cls)`: run the prop loop over `find_required`, apply the
fixed trailing appends, emit the primary function, and also emit the
secondary method when exactly one image input and one image output were
counted; the emitted pieces are joined by `'\n'`. -/
def gen_operation (nickname : String) (args : List Arg) : Except String String :=
  match genFold (find_required args) GenData.init with
  | Except.error e => Except.error e
  | Except.ok d0 =>
    let d := genFinal d0
    let func_name := upper_camelcase nickname
    let funcs :=
      if d0.images_in = 1 ∧ d0.images_out = 1 then
        [emit_func nickname func_name d, emit_method nickname func_name d]
      else
        [emit_func nickname func_name d]
    Except.ok (String.intercalate "\n" funcs)

mutual

/-- `find_class_methods(cls)` (mutually with its loop over `cls.children`):
returns the methods list, the skipped list, and the updated `generated`
dict (modelled as the list of nicknames inserted so far).  A non-abstract
class whose nickname is not yet in `generated` is attempted: on success its
text is appended and the nickname recorded, on failure an
`// Unsupported: nickname: error` comment is appended and `generated` is
left unchanged.  Children are then traversed in order. -/
def find_class_methods : OpClass → List String → List String × List String × List String
  | OpClass.node _ is_abstract nickname args children, generated =>
    let own :=
      if is_abstract then ([], [], generated)
      else if generated.contains nickname then ([], [], generated)
      else
        match gen_operation nickname args with
        | Except.ok text => ([text], [], generated ++ [nickname])
        | Except.error e =>
          ([], ["// Unsupported: " ++ nickname ++ ": " ++ e], generated)
    let rest := fcm_children children own.2.2
    (own.1 ++ rest.1, own.2.1 ++ rest.2.1, rest.2.2)

/-- The `for child in cls.children` loop of `find_class_methods`, threading
the `generated` dict and concatenating the methods and skipped lists. -/
def fcm_children : List OpClass → List String → List String × List String × List String
  | [], generated => ([], [], generated)
  | c :: cs, generated =>
    let first := find_class_methods c generated
    let rest := fcm_children cs first.2.2
    (first.1 ++ rest.1, first.2.1 ++ rest.2.1, rest.2.2)

end

/-- The `preamble` string of the script, with `%s` filled by the `today`
timestamp (`datetime.datetime.now().strftime(...)` at script start). -/
def preamble_str (today : String) : String :=
  "package vips\n\n//golint:ignore\n\n/***\n * NOTE: This file is autogenerated so you shouldn\x27t modify it.\n * See scripts/gen-operators.py\n *\n * Generated at " ++
    today ++
    "\n */\n\n// #cgo pkg-config: vips\n// #include \"vips/vips.h\"\nimport \"C\"\n// See http://www.vips.ecs.soton.ac.uk/supported/current/doc/html/libvips/func-list.html\n"

/-- The part of `generate_file`'s output after the preamble: sort the
methods and the skipped comments (Python's lexicographic string sort),
emit the skipped block (followed by a blank line) only when non-empty, then
the methods joined by blank lines. -/
def gen_body (root : OpClass) : String :=
  let r := find_class_methods root []
  let methods := List.insertionSort (· ≤ ·) r.1
  let skipped := List.insertionSort (· ≤ ·) r.2.1
  (if skipped.length > 0 then String.intercalate "\n" skipped ++ "\n\n" else "") ++
    String.intercalate "\n\n" methods

/-- `generate_file()`: traverse the registry from the root operation type
(starting with an empty `generated` dict) and assemble
`preamble + "\n\n" + skipped block + methods`.  The final `print(output)`
appends one constant newline, which is irrelevant to every comparison
below and omitted. -/
def generate_file (today : String) (root : OpClass) : String :=
  preamble_str today ++ ("\n\n" ++ gen_body root)

/-! ### Characterization of the prop loop

Contribution functions describing, per qualifying prop, what the loop in
`gen_operation` appends to each accumulator list.  `tyOf`/`mnOf` are the
successful values of the two lookups. -/

/-- Go type of a prop when `get_type` succeeds. -/
def tyOf (p : Arg) : String := (go_types p.vtype.name).getD ""

/-- Options method name of a prop when `get_options_method_name` succeeds. -/
def mnOf (p : Arg) : String :=
  if p.vtype.isEnum then "Int" else (options_method_names p.vtype.name).getD ""

/-- What a prop appends to `args` (inputs only, images included). -/
def argsContrib (p : Arg) : Option String :=
  if p.output then none else some (lower_camelcase p.name ++ " " ++ tyOf p)

/-- What a prop appends to `decls` (outputs only). -/
def declsContrib (p : Arg) : Option String :=
  if p.output then some ("var " ++ lower_camelcase p.name ++ " " ++ tyOf p) else none

/-- What a prop appends to `return_types` (outputs only, images included). -/
def rtypesContrib (p : Arg) : Option String :=
  if p.output then some (tyOf p) else none

/-- What a prop appends to `return_values` (outputs only). -/
def rvaluesContrib (p : Arg) : Option String :=
  if p.output then some (lower_camelcase p.name) else none

/-- What a prop appends to `input_options` (inputs only; enums are coerced
through `int(...)`). -/
def inOptContrib (p : Arg) : Option String :=
  if p.output then none
  else some ("Input" ++ mnOf p ++ "(\"" ++ p.name ++ "\", " ++
    (if p.vtype.isEnum then "int(" ++ lower_camelcase p.name ++ ")"
     else lower_camelcase p.name) ++ "),")

/-- What a prop appends to `output_options` (outputs only). -/
def outOptContrib (p : Arg) : Option String :=
  if p.output then
    some ("Output" ++ mnOf p ++ "(\"" ++ p.name ++ "\", &" ++ lower_camelcase p.name ++ "),")
  else none

/-- What a prop appends to `method_args`: nothing when image-typed,
otherwise a pointer parameter for outputs and a value parameter for
inputs. -/
def methodArgsContrib (p : Arg) : Option String :=
  if p.vtype.isImage then none
  else some (lower_camelcase p.name ++ (if p.output then " *" else " ") ++ tyOf p)

/-- What a prop appends to `call_values`: only non-image inputs. -/
def callValuesContrib (p : Arg) : Option String :=
  if p.output || p.vtype.isImage then none else some (lower_camelcase p.name)

/-- Number of image-typed inputs in a prop list. -/
def imagesInCount (l : List Arg) : Nat :=
  l.countP fun p => !p.output && p.vtype.isImage

/-- Number of image-typed outputs in a prop list. -/
def imagesOutCount (l : List Arg) : Nat :=
  l.countP fun p => p.output && p.vtype.isImage

/-! ### Semantic model of the method template body

`stream_template`'s body is fixed: it calls the primary function on the
receiver's current image, returns the error (receiver untouched) when it is
non-nil, and otherwise stores the function's image output into the receiver
(`in.SetImage(out)`). -/

/-- Semantic reading of the fixed body of `stream_template`: `f` is the
primary function restricted to the image argument, returning the new image
and an optional error. -/
def methodBodySem {Img : Type} (f : Img → Img × Option String) (receiver : Img) :
    Img × Option String :=
  match f receiver with
  | (out, none) => (out, none)
  | (_, some e) => (receiver, some e)

/-! ### Concrete registry data used by the closed theorems -/

/-- The `VipsImage` value type (passes the image test). -/
def imageVT : VType := ⟨"VipsImage", true, false⟩

/-- The `gdouble` value type. -/
def doubleVT : VType := ⟨"gdouble", false, false⟩

/-- A value type absent from both lookup tables. -/
def badVT : VType := ⟨"VipsFoo", false, false⟩

/-- A required image input of priority 1. -/
def argIn : Arg := ⟨"in", imageVT, true, false, false, 1⟩

/-- A required image output of priority 2. -/
def argOut : Arg := ⟨"out", imageVT, true, false, true, 2⟩

/-- A required double input of priority 3. -/
def argSigma : Arg := ⟨"sigma", doubleVT, true, false, false, 3⟩

/-- A required non-image (double) output of priority 3. -/
def argX : Arg := ⟨"x", doubleVT, true, false, true, 3⟩

/-- A required input whose value type has no table entry. -/
def argBad : Arg := ⟨"bad", badVT, true, false, false, 1⟩

/-- Props of a gaussblur-like operation: one image input, one image output,
one double input. -/
def gaussArgs : List Arg := [argOut, argSigma, argIn]

/-- Props of a max-like operation: one image input, one image output and a
non-image output. -/
def maxArgs : List Arg := [argIn, argOut, argX]

/-- Props of an avg-like operation: one image input, one non-image output. -/
def avgArgs : List Arg := [argIn, argX]

/-- Props containing an unmappable argument. -/
def badArgs : List Arg := [argBad]

/-- The accumulators after the prop loop for `gaussArgs`. -/
def gaussD : GenData :=
  (genFold (find_required gaussArgs) GenData.init).toOption.getD GenData.init

/-- The accumulators after the prop loop for `maxArgs`. -/
def maxD : GenData :=
  (genFold (find_required maxArgs) GenData.init).toOption.getD GenData.init

/-- The generated unit for the gaussblur-like operation. -/
def gaussText : String := (gen_operation "gaussblur" gaussArgs).toOption.getD ""

/-- The generated unit for a no-argument operation nicknamed `dup`. -/
def dupText : String := (gen_operation "dup" []).toOption.getD ""

/-- A concrete class generating successfully. -/
def gaussCls : OpClass := OpClass.node "VipsGaussblur" false "gaussblur" gaussArgs []

/-- A second concrete class generating successfully. -/
def avgCls : OpClass := OpClass.node "VipsAvg" false "avg" avgArgs []

/-- A concrete class whose generation fails on `argBad`. -/
def badCls : OpClass := OpClass.node "VipsBad" false "bad" badArgs []

/-- The same class with its own generation disabled (abstract). -/
def badAbsCls : OpClass := OpClass.node "VipsBad" true "bad" badArgs []

/-- A registry root with no concrete operation classes. -/
def rootOnly : OpClass := OpClass.node "VipsOperation" true "operation" [] []

theorem genStep_ok_eq {d d1 : GenData} {p : Arg} (h : genStep d p = Except.ok d1) :
    d1 = genStepOk d p (tyOf p) (mnOf p) := by
  unfold genStep at h
  unfold get_type get_options_method_name at h
  cases hg : go_types p.vtype.name with
  | none => rw [hg] at h; simp at h
  | some t =>
    rw [hg] at h
    by_cases he : p.vtype.isEnum
    · simp only [he, if_pos, if_true] at h
      cases h
      simp [tyOf, mnOf, hg, he]
    · cases hm : options_method_names p.vtype.name with
      | none => rw [if_neg he, hm] at h; simp at h
      | some m =>
        rw [if_neg he, hm] at h
        cases h
        simp [tyOf, mnOf, hg, hm, he]

theorem genFold_ok_eq : ∀ (l : List Arg) (d d' : GenData), genFold l d = Except.ok d' →
    d' = ⟨d.args ++ l.filterMap argsContrib,
          d.decls ++ l.filterMap declsContrib,
          d.return_types ++ l.filterMap rtypesContrib,
          d.return_values ++ l.filterMap rvaluesContrib,
          d.input_options ++ l.filterMap inOptContrib,
          d.output_options ++ l.filterMap outOptContrib,
          d.method_args ++ l.filterMap methodArgsContrib,
          d.call_values ++ l.filterMap callValuesContrib,
          d.images_in + imagesInCount l,
          d.images_out + imagesOutCount l⟩ := by
  intro l
  induction l with
  | nil =>
    intro d d' h
    simp only [genFold] at h
    cases h
    simp [imagesInCount, imagesOutCount]
  | cons p ps ih =>
    intro d d' h
    simp only [genFold] at h
    cases hs : genStep d p with
    | error e => rw [hs] at h; simp at h
    | ok d1 =>
      rw [hs] at h
      have h1 := genStep_ok_eq hs
      subst h1
      have h2 := ih _ _ h
      rw [h2]
      cases ho : p.output <;> cases hi : p.vtype.isImage <;>
        simp [genStepOk, ho, hi, argsContrib, declsContrib, rtypesContrib, rvaluesContrib,
          inOptContrib, outOptContrib, methodArgsContrib, callValuesContrib,
          imagesInCount, imagesOutCount, List.countP_cons, List.append_assoc] <;>
        omega

/-! ### Characterization of `find_required` -/

theorem find_required_perm (args : List Arg) :
    (find_required args).Perm (args.filter fun a => a.required && !a.deprecated) :=
  List.perm_insertionSort ple _

theorem mem_find_required {args : List Arg} {a : Arg} :
    a ∈ find_required args ↔ a ∈ args ∧ a.required = true ∧ a.deprecated = false := by
  rw [(find_required_perm args).mem_iff, List.mem_filter]
  simp

theorem sorted_find_required (args : List Arg) :
    List.Sorted ple (find_required args) :=
  List.sorted_insertionSort ple _

/-- Stability of the priority sort: for every priority value `k`, the
sorted list restricted to priority `k` lists those props in their original
relative order. -/
theorem filter_insertionSort_priority (k : Int) :
    ∀ l : List Arg,
      (List.insertionSort ple l).filter (fun a => decide (a.priority = k)) =
        l.filter fun a => decide (a.priority = k) := by
  intro l
  induction l with
  | nil => rfl
  | cons a l ih =>
    have hsplit :
        (List.insertionSort ple l).filter (fun a => decide (a.priority = k)) =
          ((List.insertionSort ple l).takeWhile fun b => decide ¬ple a b).filter
              (fun a => decide (a.priority = k)) ++
            ((List.insertionSort ple l).dropWhile fun b => decide ¬ple a b).filter
              (fun a => decide (a.priority = k)) := by
      rw [← List.filter_append, List.takeWhile_append_dropWhile]
    by_cases hk : a.priority = k
    · have htake :
          ((List.insertionSort ple l).takeWhile fun b => decide ¬ple a b).filter
            (fun a => decide (a.priority = k)) = [] := by
        rw [List.filter_eq_nil_iff]
        intro x hx
        have hpx := List.mem_takeWhile_imp hx
        simp only [decide_eq_true_eq] at hpx
        simp only [decide_eq_true_eq]
        intro hxk
        exact hpx (by unfold ple; omega)
      rw [List.insertionSort, List.orderedInsert_eq_take_drop, List.filter_append,
        htake, List.filter_cons_of_pos (by simp [hk]), List.nil_append,
        List.filter_cons_of_pos (by simp [hk]), ← ih, hsplit, htake, List.nil_append]
    · rw [List.insertionSort, List.orderedInsert_eq_take_drop, List.filter_append,
        List.filter_cons_of_neg (by simp [hk]), ← List.filter_append,
        List.takeWhile_append_dropWhile, ih, List.filter_cons_of_neg (by simp [hk])]

theorem find_required_stable (args : List Arg) (k : Int) :
    (find_required args).filter (fun a => decide (a.priority = k)) =
      (args.filter fun a => a.required && !a.deprecated).filter
        fun a => decide (a.priority = k) :=
  filter_insertionSort_priority k _

/-! ### Characterization of the traversal -/

theorem find_class_methods_node (nm : String) (ab : Bool) (nick : String)
    (args : List Arg) (cs : List OpClass) (g : List String) :
    find_class_methods (OpClass.node nm ab nick args cs) g =
      (let own :=
        if ab then ([], [], g)
        else if g.contains nick then ([], [], g)
        else
          match gen_operation nick args with
          | Except.ok text => ([text], [], g ++ [nick])
          | Except.error e => ([], ["// Unsupported: " ++ nick ++ ": " ++ e], g)
      let rest := fcm_children cs own.2.2
      (own.1 ++ rest.1, own.2.1 ++ rest.2.1, rest.2.2)) := by
  rw [find_class_methods]

theorem fcm_children_cons (c : OpClass) (cs : List OpClass) (g : List String) :
    fcm_children (c :: cs) g =
      ((find_class_methods c g).1 ++ (fcm_children cs (find_class_methods c g).2.2).1,
       (find_class_methods c g).2.1 ++ (fcm_children cs (find_class_methods c g).2.2).2.1,
       (fcm_children cs (find_class_methods c g).2.2).2.2) := by
  rw [fcm_children]

theorem fcm_children_append (xs ys : List OpClass) (g : List String) :
    fcm_children (xs ++ ys) g =
      ((fcm_children xs g).1 ++ (fcm_children ys (fcm_children xs g).2.2).1,
       (fcm_children xs g).2.1 ++ (fcm_children ys (fcm_children xs g).2.2).2.1,
       (fcm_children ys (fcm_children xs g).2.2).2.2) := by
  induction xs generalizing g with
  | nil => simp [fcm_children]
  | cons c cs ih =>
    rw [List.cons_append, fcm_children_cons, fcm_children_cons, ih, List.append_assoc,
      List.append_assoc]

theorem fcm_children_nil (g : List String) : fcm_children [] g = ([], [], g) := by
  rw [fcm_children]

theorem intercalate_pair (s a b : String) : String.intercalate s [a, b] = a ++ s ++ b := by
  simp [String.intercalate, String.intercalate.go]

theorem countP_split (p q : Arg → Bool) : ∀ l : List Arg,
    l.countP p = l.countP (fun a => p a && q a) + l.countP (fun a => p a && !q a) := by
  intro l
  induction l with
  | nil => simp
  | cons a l ih =>
    by_cases hp : p a = true <;> by_cases hq : q a = true <;>
      simp [List.countP_cons, hp, hq, ih] <;> omega

theorem length_filterMap_rtypes : ∀ l : List Arg,
    (l.filterMap rtypesContrib).length = l.countP fun p => p.output := by
  intro l
  induction l with
  | nil => rfl
  | cons p ps ih =>
    by_cases hp : p.output = true <;>
      simp [rtypesContrib, List.filterMap_cons, hp, List.countP_cons, ih]

mutual

theorem fcm_gen_mono_cls : ∀ (c : OpClass) (g : List String),
    ∃ ext, (find_class_methods c g).2.2 = g ++ ext
  | OpClass.node nm ab nick args cs, g => by
    rw [find_class_methods_node]
    by_cases hab : ab = true
    · simpa [hab] using fcm_gen_mono_children cs g
    · by_cases hc : nick ∈ g
      · simpa [hab, hc] using fcm_gen_mono_children cs g
      · cases hg : gen_operation nick args with
        | ok t =>
          obtain ⟨ext, hext⟩ := fcm_gen_mono_children cs (g ++ [nick])
          exact ⟨[nick] ++ ext, by simpa [hab, hc, hg, List.append_assoc] using hext⟩
        | error e => simpa [hab, hc, hg] using fcm_gen_mono_children cs g

theorem fcm_gen_mono_children : ∀ (cs : List OpClass) (g : List String),
    ∃ ext, (fcm_children cs g).2.2 = g ++ ext
  | [], g => ⟨[], by rw [fcm_children_nil]; simp⟩
  | c :: cs, g => by
    obtain ⟨e1, h1⟩ := fcm_gen_mono_cls c g
    obtain ⟨e2, h2⟩ := fcm_gen_mono_children cs (find_class_methods c g).2.2
    rw [fcm_children_cons]
    exact ⟨e1 ++ e2, by rw [h2, h1, List.append_assoc]⟩

end

theorem intercalate_single (s a : String) : String.intercalate s [a] = a := by
  simp [String.intercalate, String.intercalate.go]

/-! ### Claims -/

/-- C2 counterexample: the LowerCamel transformation applied to
"jpeg-save-buffer" does not return "jpegSaveBuffer": `str.title()` of the
joined tail "savebuffer" capitalizes only its first letter. -/
theorem C2_counterexample : lower_camelcase "jpeg-save-buffer" ≠ "jpegSaveBuffer" := by
  decide

/-- C2 (amended): for the input string "jpeg-save-buffer", the LowerCamel
name transformation returns exactly "jpegSavebuffer" (the remaining
segments "save" and "buffer" are joined to "savebuffer" before
camel-casing, so only the leading "s" is capitalized). -/
theorem C2_lower_camelcase_jpeg_save_buffer :
    lower_camelcase "jpeg-save-buffer" = "jpegSavebuffer" := by
  rfl

/-- C8: Canonicalize replaces every hyphen with an underscore (character-wise
map, so no hyphen survives); LowerCamel is the first underscore-separated
segment unchanged followed by UpperCamel of the concatenation of the
remaining segments; and on "gaussian-blur" the three transformations give
"gaussian_blur", "GaussianBlur" and "gaussianBlur". -/
theorem C8_name_transformations :
    (∀ s : String, (cppize s).data = s.data.map fun c => if c = '-' then '_' else c) ∧
    (∀ s : String, '-' ∉ (cppize s).data) ∧
    (∀ name : String,
      lower_camelcase name =
        (pySplit (cppize name)).headD "" ++
          upper_camelcase (String.join (pySplit (cppize name)).tail)) ∧
    cppize "gaussian-blur" = "gaussian_blur" ∧
    upper_camelcase "gaussian-blur" = "GaussianBlur" ∧
    lower_camelcase "gaussian-blur" = "gaussianBlur" := by
  refine ⟨fun s => rfl, fun s h => ?_, fun name => rfl, rfl, rfl, rfl⟩
  obtain ⟨a, _, hfa⟩ := List.mem_map.mp h
  by_cases ha : a = '-' <;> simp [ha] at hfa

/-- C1 counterexample: two runs of the generator over one and the same
registry, at different wall-clock times, produce different output bytes:
the preamble embeds the formatted generation timestamp. -/
theorem C1_counterexample :
    generate_file "10:00AM on January 01, 2026" rootOnly ≠
      generate_file "10:01AM on January 01, 2026" rootOnly := by
  decide

/-- C1 (amended): for a fixed registry the output is byte-identical after
the preamble — the whole output is the preamble (which embeds the
timestamp) followed by a rest that depends only on the registry — so two
runs with the same formatted timestamp yield byte-identical output. -/
theorem C1_deterministic_up_to_timestamp (root : OpClass) (t1 t2 : String) :
    ∃ rest : String,
      generate_file t1 root = preamble_str t1 ++ rest ∧
      generate_file t2 root = preamble_str t2 ++ rest ∧
      (t1 = t2 → generate_file t1 root = generate_file t2 root) :=
  ⟨"\n\n" ++ gen_body root, rfl, rfl, fun h => by rw [h]⟩

/-- Witness for C1: the amended determinism applied at a concrete
timestamp and registry. -/
theorem C1_witness :
    generate_file "12:00PM on March 03, 2026" rootOnly =
      generate_file "12:00PM on March 03, 2026" rootOnly := by
  obtain ⟨rest, h1, h2, h3⟩ :=
    C1_deterministic_up_to_timestamp rootOnly "12:00PM on March 03, 2026"
      "12:00PM on March 03, 2026"
  exact h3 rfl

/-- C6: a prop is kept by `find_required` iff its REQUIRED flag is set and
its DEPRECATED flag is not; the kept props are sorted by ascending
priority; the sort is stable (for every priority value the kept props of
that priority appear in their original registry order); and the explicit
parameter list of the generated primary function is built from exactly
this list. -/
theorem C6_required_selection_and_order (args : List Arg) :
    (∀ a : Arg, a ∈ find_required args ↔ a ∈ args ∧ a.required = true ∧ a.deprecated = false) ∧
    List.Sorted ple (find_required args) ∧
    (∀ k : Int,
      (find_required args).filter (fun a => decide (a.priority = k)) =
        (args.filter fun a => a.required && !a.deprecated).filter
          fun a => decide (a.priority = k)) ∧
    (genFold (find_required args) GenData.init).map GenData.args =
      (genFold (find_required args) GenData.init).map fun _ =>
        (find_required args).filterMap argsContrib := by
  refine ⟨fun a => mem_find_required, sorted_find_required args, find_required_stable args, ?_⟩
  cases h : genFold (find_required args) GenData.init with
  | error e => rfl
  | ok d => simp [genFold_ok_eq _ _ _ h, Except.map, GenData.init]

/-- C7: when the prop loop succeeds, the secondary method form is emitted
iff exactly one qualifying image input and exactly one qualifying image
output were counted (the counters equal the counts over the qualifying
props); the emitted method text is `emit_method`, whose body forwards to
the primary function; and the fixed body semantics replaces the receiver's
image only on success, leaving the receiver unchanged and returning the
error on failure. -/
theorem C7_method_emission (nick : String) (args : List Arg) (d : GenData)
    (h : genFold (find_required args) GenData.init = Except.ok d) :
    (d.images_in = 1 ∧ d.images_out = 1 →
      gen_operation nick args =
        Except.ok (emit_func nick (upper_camelcase nick) (genFinal d) ++ "\n" ++
          emit_method nick (upper_camelcase nick) (genFinal d))) ∧
    (¬(d.images_in = 1 ∧ d.images_out = 1) →
      gen_operation nick args =
        Except.ok (emit_func nick (upper_camelcase nick) (genFinal d))) ∧
    d.images_in = imagesInCount (find_required args) ∧
    d.images_out = imagesOutCount (find_required args) ∧
    (∀ (Img : Type) (f : Img → Img × Option String) (r : Img),
      ((f r).2 = none → methodBodySem f r = ((f r).1, none)) ∧
      ∀ e, (f r).2 = some e → methodBodySem f r = (r, some e)) := by
  have hd := genFold_ok_eq _ _ _ h
  refine ⟨?_, ?_, ?_, ?_, ?_⟩
  · intro hc
    simp only [gen_operation, h, if_pos hc]
    rw [intercalate_pair]
  · intro hc
    simp only [gen_operation, h, if_neg hc]
    rw [intercalate_single]
  · rw [hd]; simp [GenData.init]
  · rw [hd]; simp [GenData.init]
  · intro Img f r
    constructor
    · intro he
      cases hfr : f r with
      | mk out err =>
        rw [hfr] at he
        simp only at he
        subst he
        simp [methodBodySem, hfr]
    · intro e he
      cases hfr : f r with
      | mk out err =>
        rw [hfr] at he
        simp only at he
        subst he
        simp [methodBodySem, hfr]

/-- Witness for C7: the gaussblur-like operation (one image input, one
image output) emits both the primary function and the secondary method. -/
theorem C7_witness :
    gen_operation "gaussblur" gaussArgs =
      Except.ok (emit_func "gaussblur" (upper_camelcase "gaussblur") (genFinal gaussD) ++
        "\n" ++ emit_method "gaussblur" (upper_camelcase "gaussblur") (genFinal gaussD)) :=
  (C7_method_emission "gaussblur" gaussArgs gaussD rfl).1 ⟨rfl, rfl⟩

/-- C3 counterexample: for the gaussblur-like operation, the qualifying
image-typed input `in` does appear as an explicit parameter of the
generated primary function, namely as `in *C.VipsImage` in its parameter
list. -/
theorem C3_counterexample :
    argIn.vtype.isImage = true ∧ argIn ∈ find_required gaussArgs ∧
    genFold (find_required gaussArgs) GenData.init = Except.ok gaussD ∧
    "in *C.VipsImage" ∈ gaussD.args ∧
    "in *C.VipsImage" ∈ (genFinal gaussD).args := by
  exact ⟨rfl, by decide, rfl, by decide, by decide⟩

/-- C3 (amended): image-typed qualifying arguments contribute nothing to
the secondary method's parameter list or forwarded call values (there the
single image input is the implicit receiver and the single image output
the receiver's replacement), but in the primary function an image input
does appear as an explicit parameter and an image output as an explicit
return value. -/
theorem C3_images_implicit_in_method_only (args : List Arg) (d : GenData)
    (h : genFold (find_required args) GenData.init = Except.ok d) :
    d.method_args = (find_required args).filterMap methodArgsContrib ∧
    d.call_values = (find_required args).filterMap callValuesContrib ∧
    (∀ p ∈ find_required args, p.vtype.isImage = true →
      methodArgsContrib p = none ∧ callValuesContrib p = none) ∧
    d.args = (find_required args).filterMap argsContrib ∧
    d.return_types = (find_required args).filterMap rtypesContrib ∧
    (∀ p ∈ find_required args, p.vtype.isImage = true → p.output = false →
      argsContrib p = some (lower_camelcase p.name ++ " " ++ tyOf p)) ∧
    (∀ p ∈ find_required args, p.vtype.isImage = true → p.output = true →
      rtypesContrib p = some (tyOf p)) := by
  have hd := genFold_ok_eq _ _ _ h
  subst hd
  refine ⟨by simp [GenData.init], by simp [GenData.init], ?_, by simp [GenData.init],
    by simp [GenData.init], ?_, ?_⟩
  · intro p _ himg
    exact ⟨by simp [methodArgsContrib, himg], by simp [callValuesContrib, himg]⟩
  · intro p _ _ hout
    simp [argsContrib, hout]
  · intro p _ _ hout
    simp [rtypesContrib, hout]

/-- Witness for C3 (amended): the method parameter list of the
gaussblur-like operation is exactly the non-image contributions. -/
theorem C3_witness :
    gaussD.method_args = (find_required gaussArgs).filterMap methodArgsContrib :=
  (C3_images_implicit_in_method_only gaussArgs gaussD rfl).1

/-- C10: for an operation with exactly one image input, exactly one image
output and a qualifying non-image output, the secondary method declares a
pointer parameter for that output but never forwards it: the forwarded
call values are exactly the non-image inputs followed by the options
variadic, the primary function returns more than two values, and the
method (whose fixed body captures exactly the two results `out, err`) is
emitted alongside the function. -/
theorem C10_method_drops_nonimage_outputs (nick : String) (args : List Arg) (d : GenData)
    (h : genFold (find_required args) GenData.init = Except.ok d)
    (h1 : d.images_in = 1) (h2 : d.images_out = 1)
    (p0 : Arg) (hp0 : p0 ∈ find_required args) (hout : p0.output = true)
    (himg : p0.vtype.isImage = false) :
    (lower_camelcase p0.name ++ " *" ++ tyOf p0) ∈ (genFinal d).method_args ∧
    (genFinal d).call_values =
      (find_required args).filterMap callValuesContrib ++ ["options..."] ∧
    (∀ q ∈ find_required args, q.output = true → callValuesContrib q = none) ∧
    2 < (genFinal d).return_types.length ∧
    gen_operation nick args =
      Except.ok (emit_func nick (upper_camelcase nick) (genFinal d) ++ "\n" ++
        emit_method nick (upper_camelcase nick) (genFinal d)) := by
  have hd := genFold_ok_eq _ _ _ h
  refine ⟨?_, ?_, ?_, ?_, ?_⟩
  · apply List.mem_append_left
    rw [hd]
    simp only [GenData.init, List.nil_append]
    exact List.mem_filterMap.mpr ⟨p0, hp0, by simp [methodArgsContrib, himg, hout]⟩
  · rw [hd]
    simp [genFinal, GenData.init]
  · intro q _ hq
    simp [callValuesContrib, hq]
  · have hlen : (genFinal d).return_types.length = d.return_types.length + 1 := by
      simp [genFinal]
    have hrt : d.return_types.length =
        (find_required args).countP (fun p => p.output) := by
      rw [hd]
      simp only [GenData.init, List.nil_append]
      exact length_filterMap_rtypes _
    have hsplitc := countP_split (fun p => p.output) (fun p => p.vtype.isImage)
      (find_required args)
    have himgc : d.images_out = imagesOutCount (find_required args) := by
      rw [hd]; simp [GenData.init]
    have hpos : 0 < (find_required args).countP
        fun a => a.output && !a.vtype.isImage := by
      rw [List.countP_pos_iff]
      exact ⟨p0, hp0, by simp [hout, himg]⟩
    rw [h2] at himgc
    unfold imagesOutCount at himgc
    omega
  · simp only [gen_operation, h, if_pos (And.intro h1 h2)]
    rw [intercalate_pair]

/-- Witness for C10: the max-like operation (image input, image output,
double output `x`) declares `x *float64` as a method parameter while its
primary function returns three values. -/
theorem C10_witness :
    (lower_camelcase argX.name ++ " *" ++ tyOf argX) ∈ (genFinal maxD).method_args ∧
    2 < (genFinal maxD).return_types.length := by
  have full := C10_method_drops_nonimage_outputs "max" maxArgs maxD rfl rfl rfl argX
    (by decide) rfl rfl
  exact ⟨full.1, full.2.2.2.1⟩

/-- C5: a class whose generation fails (e.g. because a value type is
missing from the tables) contributes exactly one skipped entry
`// Unsupported: nickname: error` at its traversal position and nothing
else: compared with the same registry in which that one class is abstract
(so its own generation is removed), the methods list and the final
generated set are byte-identical — every other operation generates
normally — and the skipped list gains exactly that one entry. -/
theorem C5_failing_op_is_isolated (ts1 ts2 : List OpClass) (nm n : String) (args : List Arg)
    (cc : List OpClass) (g : List String) (e : String)
    (hfail : gen_operation n args = Except.error e)
    (hnew : n ∉ (fcm_children ts1 g).2.2) :
    (fcm_children (ts1 ++ OpClass.node nm false n args cc :: ts2) g).1 =
      (fcm_children (ts1 ++ OpClass.node nm true n args cc :: ts2) g).1 ∧
    (fcm_children (ts1 ++ OpClass.node nm false n args cc :: ts2) g).2.2 =
      (fcm_children (ts1 ++ OpClass.node nm true n args cc :: ts2) g).2.2 ∧
    ∃ tail : List String,
      (fcm_children (ts1 ++ OpClass.node nm true n args cc :: ts2) g).2.1 =
        (fcm_children ts1 g).2.1 ++ tail ∧
      (fcm_children (ts1 ++ OpClass.node nm false n args cc :: ts2) g).2.1 =
        (fcm_children ts1 g).2.1 ++ ("// Unsupported: " ++ n ++ ": " ++ e) :: tail := by
  rw [fcm_children_append ts1 (OpClass.node nm false n args cc :: ts2) g,
    fcm_children_append ts1 (OpClass.node nm true n args cc :: ts2) g,
    fcm_children_cons, fcm_children_cons, find_class_methods_node, find_class_methods_node]
  refine ⟨by simp [hfail, hnew], by simp [hfail, hnew],
    ⟨(fcm_children cc (fcm_children ts1 g).2.2).2.1 ++
      (fcm_children ts2 (fcm_children cc (fcm_children ts1 g).2.2).2.2).2.1,
      by simp [hfail, hnew], by simp [hfail, hnew]⟩⟩

/-- Witness for C5: in a three-class registry whose middle class fails on
an unmappable type, the methods are the same as with that class removed. -/
theorem C5_witness :
    (fcm_children [gaussCls, badCls, avgCls] []).1 =
      (fcm_children [gaussCls, badAbsCls, avgCls] []).1 := by
  have h := C5_failing_op_is_isolated [gaussCls] [avgCls] "VipsBad" "bad" badArgs []
    [] "\x27VipsFoo\x27" rfl (by decide)
  exact h.1

/-- C9: the deduplication set is updated only when generation succeeds: a
failing first synonym does not register the nickname, so a later synonym
class with the same nickname is still attempted (and generates when it
succeeds), and when both synonyms fail the skipped list carries one entry
per failing class, repeating the nickname. -/
theorem C9_dedup_updates_only_on_success (nm1 nm2 n : String) (args1 args2 : List Arg)
    (g : List String) (e1 : String)
    (hn : n ∉ g)
    (h1 : gen_operation n args1 = Except.error e1) :
    (find_class_methods (OpClass.node nm1 false n args1 []) g).2.2 = g ∧
    (∀ t, gen_operation n args2 = Except.ok t →
      fcm_children [OpClass.node nm1 false n args1 [], OpClass.node nm2 false n args2 []] g =
        ([t], ["// Unsupported: " ++ n ++ ": " ++ e1], g ++ [n])) ∧
    (∀ e2, gen_operation n args2 = Except.error e2 →
      fcm_children [OpClass.node nm1 false n args1 [], OpClass.node nm2 false n args2 []] g =
        ([], ["// Unsupported: " ++ n ++ ": " ++ e1,
          "// Unsupported: " ++ n ++ ": " ++ e2], g)) := by
  refine ⟨?_, ?_, ?_⟩
  · simp [find_class_methods_node, fcm_children_nil, hn, h1]
  · intro t ht
    simp [fcm_children_cons, find_class_methods_node, fcm_children_nil, hn, h1, ht]
  · intro e2 he2
    simp [fcm_children_cons, find_class_methods_node, fcm_children_nil, hn, h1, he2]

/-- Witness for C9: with synonym classes `VipsDupA` (failing) and
`VipsDupB` (succeeding) sharing nickname `dup`, the second one still
generates and the first leaves a skipped entry. -/
theorem C9_witness :
    fcm_children [OpClass.node "VipsDupA" false "dup" badArgs [],
        OpClass.node "VipsDupB" false "dup" [] []] [] =
      ([dupText], ["// Unsupported: dup: \x27VipsFoo\x27"], ["dup"]) := by
  have h := C9_dedup_updates_only_on_success "VipsDupA" "VipsDupB" "dup" badArgs []
    [] "\x27VipsFoo\x27" (by simp) rfl
  exact h.2.1 dupText rfl

/-- C4 counterexample: with two concrete classes sharing nickname `dup`,
where the first-encountered one fails generation and the second succeeds,
the run produces exactly one generated unit for `dup` — but it is the one
from the second-encountered class, while the first-encountered class only
leaves a skipped comment. -/
theorem C4_counterexample :
    gen_operation "dup" badArgs = Except.error "\x27VipsFoo\x27" ∧
    gen_operation "dup" [] = Except.ok dupText ∧
    find_class_methods
        (OpClass.node "VipsOperation" true "operation" []
          [OpClass.node "VipsDupA" false "dup" badArgs [],
           OpClass.node "VipsDupB" false "dup" [] []]) [] =
      ([dupText], ["// Unsupported: dup: \x27VipsFoo\x27"], ["dup"]) :=
  ⟨rfl, rfl, rfl⟩

/-- C4 (amended): at most one generated unit is produced per nickname, and
the first class whose generation succeeds wins: a class whose nickname is
already registered contributes neither a unit nor a skipped entry of its
own; the first successful class emits its unit and registers the nickname;
and the registered set only ever grows along the traversal. -/
theorem C4_dedup_first_success_wins (nm nick : String) (args : List Arg)
    (cc : List OpClass) (g : List String) :
    (nick ∈ g →
      find_class_methods (OpClass.node nm false nick args cc) g = fcm_children cc g) ∧
    (∀ t, nick ∉ g → gen_operation nick args = Except.ok t →
      find_class_methods (OpClass.node nm false nick args cc) g =
        (t :: (fcm_children cc (g ++ [nick])).1,
         (fcm_children cc (g ++ [nick])).2.1,
         (fcm_children cc (g ++ [nick])).2.2)) ∧
    (∀ (cs : List OpClass) (g0 : List String), ∃ ext, (fcm_children cs g0).2.2 = g0 ++ ext) := by
  refine ⟨?_, ?_, fcm_gen_mono_children⟩
  · intro hmem
    rw [find_class_methods_node]
    simp [hmem]
  · intro t hmem ht
    rw [find_class_methods_node]
    simp [hmem, ht]

/-- Witness for C4 (amended): a lone successful class nicknamed `dup`
emits its unit and registers the nickname. -/
theorem C4_witness :
    find_class_methods (OpClass.node "VipsDup" false "dup" [] []) [] =
      ([dupText], [], ["dup"]) := by
  have h := (C4_dedup_first_success_wins "VipsDup" "dup" [] [] []).2.1 dupText
    (by simp) rfl
  rw [h, fcm_children_nil]
  simp

end GenOperators
